import Mathlib

/-!
Shallow embedding of the record-enrichment pipeline in `src/app.py`.

The pipeline reads a CSV into a table, validates each row
(`build_request_row`), groups eligible rows into batches of 10, calls the
external enrichment API per batch (`fetch_bulk_emails`), merges the returned
emails back into the table, and records job status and a history entry
(`process_csv`).  Pandas cell values are modelled by `Cell` (a string, a
number, or NaN); Python exceptions by the `Exc` type, with fallible code
returning `Except Exc`; the network interaction of one batch call by
`NetOutcome`, supplied to the model as an oracle indexed by batch number.
-/

deriving instance DecidableEq for Except

namespace Enrich

/-- A pandas cell value as seen by the row-processing code: a missing value
(NaN), a string, or a non-string scalar (numbers; modelled by `Int`). -/
inductive Cell where
  | nan : Cell
  | str (s : String) : Cell
  | num (n : Int) : Cell
deriving Repr, DecidableEq

/-- Python exceptions that the embedded code can raise or receive. -/
inductive Exc where
  | attributeError (msg : String)
  | httpError (msg : String)
  | connectionError (msg : String)
  | jsonDecodeError (msg : String)
  | appError (msg : String)
  | valueError (msg : String)
deriving Repr, DecidableEq

/-- The message `str(e)` of an exception. -/
def Exc.msg : Exc → String
  | .attributeError m => m
  | .httpError m => m
  | .connectionError m => m
  | .jsonDecodeError m => m
  | .appError m => m
  | .valueError m => m

/-- Model of `pd.isna` on one cell. -/
def pdIsna : Cell → Bool
  | .nan => true
  | _ => false

/-- Model of `isinstance(x, str)` on one cell. -/
def isStrCell : Cell → Bool
  | .str _ => true
  | _ => false

/-- Python falsiness of a cell value: NaN is `None`-like only after a
`pd.notna` guard, so here falsiness is that of the raw value: the empty
string and the number zero are falsy (NaN, a float, is truthy in Python,
but the code only tests cells after replacing NaN by `None`; `cellFalsy`
is the combined test used on a `pd.notna`-guarded value, where NaN has
become `None` and hence falsy). -/
def cellFalsy : Cell → Bool
  | .nan => true
  | .str s => s == ""
  | .num n => n == 0

/-- Model of Python `s.strip()`: remove surrounding whitespace characters. -/
def pyStrip (s : String) : String :=
  (((s.toList.dropWhile Char.isWhitespace).reverse.dropWhile
    Char.isWhitespace).reverse).asString

/-- Model of Python `s.lower()`: lower-case every character. -/
def pyLower (s : String) : String :=
  (s.toList.map Char.toLower).asString

/-- Model of Python `s.startswith(pre)`. -/
def pyStartsWith (s pre : String) : Bool :=
  pre.toList.isPrefixOf s.toList

/-- Model of Python `s[n:]`: drop the first `n` characters. -/
def pyDrop (s : String) (n : Nat) : String :=
  (s.toList.drop n).asString

/-- Whether `needle` occurs as a contiguous sublist of `hay` (Python's
`needle in hay` on strings, after `toList`). -/
def listContains (needle : List Char) : List Char → Bool
  | [] => needle.isEmpty
  | c :: t => needle.isPrefixOf (c :: t) || listContains needle t

/-- Model of `x.strip()` on a cell: defined for strings (Python `str.strip`
removes surrounding whitespace), an `AttributeError` otherwise. -/
def cellStrip : Cell → Except Exc String
  | .str s => .ok (pyStrip s)
  | .nan => .error (.attributeError "float object has no attribute strip")
  | .num _ => .error (.attributeError "int object has no attribute strip")

/-- Model of `row[col] if pd.notna(row[col]) else None` (app.py lines 82-85). -/
def notnaOpt : Cell → Option Cell
  | .nan => none
  | c => some c

/-- Python truthiness of an optional cell (`None` is falsy). -/
def optCellTruthy : Option Cell → Bool
  | none => false
  | some c => !(cellFalsy c)

/-- Python truthiness of an optional string (`None` and `""` are falsy). -/
def optStrTruthy : Option String → Bool
  | none => false
  | some s => s != ""

/-- Model of the Python idiom `x.strip() if x else None` on an optional
cell: a falsy value maps to `None`, a truthy one is stripped (raising
`AttributeError` on a non-string). -/
def stripIfTruthy : Option Cell → Except Exc (Option String)
  | none => .ok none
  | some c => if cellFalsy c then .ok none else (cellStrip c).map some

/-- Characters allowed in a URL scheme by `urllib.parse`. -/
def schemeChar (c : Char) : Bool :=
  c.isAlphanum || c == '+' || c == '-' || c == '.'

/-- Whether a character list starts with an ASCII letter. -/
def headAlpha : List Char → Bool
  | c :: _ => c.isAlpha
  | [] => false

/-- Model of the scheme-removal step of `urllib.parse.urlsplit`: when the
text before the first `:` is a nonempty valid scheme, drop it together
with the colon; otherwise leave the input unchanged. -/
def removeScheme (l : List Char) : List Char :=
  let pre := l.takeWhile (fun c => c != ':')
  if pre.length < l.length && !pre.isEmpty && headAlpha pre && pre.all schemeChar then
    l.drop (pre.length + 1)
  else l

/-- A character that continues a netloc: anything other than `/`, `?`
or `#`. -/
def netlocChar (c : Char) : Bool :=
  c != '/' && c != '?' && c != '#'

/-- Model of the netloc-extraction step of `urllib.parse.urlsplit`: when
the input starts with `//`, the netloc runs until the next `/`, `?` or
`#`, and `urlsplit` raises `ValueError("Invalid IPv6 URL")` when the
netloc contains an unmatched `[` or `]`.  Returns the netloc and the
remainder. -/
def splitNetloc (l : List Char) : Except Exc (List Char × List Char) :=
  if l.take 2 = ['/', '/'] then
    if ((l.drop 2).takeWhile netlocChar).contains '[' !=
        ((l.drop 2).takeWhile netlocChar).contains ']' then
      .error (.valueError "Invalid IPv6 URL")
    else
      .ok ((l.drop 2).takeWhile netlocChar,
        (l.drop 2).drop ((l.drop 2).takeWhile netlocChar).length)
  else .ok ([], l)

/-- Model of the params split `urllib.parse.urlparse` applies to the path
returned by `urlsplit` (`_splitparams`): when the path contains `;`, cut
it at the first `;` — at the first `;` after the last `/` when the path
contains `/` (no cut when there is none there). -/
def splitParams (path : List Char) : List Char :=
  if path.contains ';' then
    if path.contains '/' then
      let afterRev := path.reverse.takeWhile (fun c => c != '/')
      let after := afterRev.reverse
      if after.contains ';' then
        (path.reverse.drop afterRev.length).reverse ++ after.takeWhile (fun c => c != ';')
      else path
    else path.takeWhile (fun c => c != ';')
  else path

/-- Model of `urllib.parse.urlparse`, restricted to the two components the
code reads: `(netloc, path)`.  The path is the remainder up to the first
`?` or `#`, with the `;params` part split off; a bracket-mismatched
netloc raises `ValueError("Invalid IPv6 URL")`. -/
def urlparseNetlocPath (s : String) : Except Exc (String × String) :=
  match splitNetloc (removeScheme s.toList) with
  | .error e => .error e
  | .ok np =>
    .ok (np.1.asString,
      (splitParams (np.2.takeWhile (fun c => c != '?' && c != '#'))).asString)

/-- Model of Python `s.strip("/")`: remove `/` characters from both ends. -/
def stripSlashes (s : String) : String :=
  (((s.toList.dropWhile (fun c => c == '/')).reverse.dropWhile
    (fun c => c == '/')).reverse).asString

/-- Embedding of `extract_domain` (app.py lines 71-79): `None` for NaN,
non-string or blank input; otherwise take the URL's netloc (falling back
to the path), strip surrounding slashes, and drop one leading `www.`.
A raised `ValueError` from `urlparse` (bracket-mismatched host) is not
caught and propagates. -/
def extract_domain (url : Cell) : Except Exc (Option String) :=
  if pdIsna url then .ok none
  else if !(isStrCell url) then .ok none
  else
    match cellStrip url with
    | .error e => .error e
    | .ok s =>
      if s == "" then .ok none
      else
        match urlparseNetlocPath s with
        | .error e => .error e
        | .ok np =>
          let domain0 := if np.1 != "" then np.1 else np.2
          let domain1 := stripSlashes domain0
          let domain2 := if pyStartsWith domain1 "www." then pyDrop domain1 4 else domain1
          .ok (some domain2)

/-- One raw input row, restricted to the five required CSV columns. -/
structure Row where
  firstName : Cell
  lastName : Cell
  linkedinUrl : Cell
  companyName : Cell
  companyWebsite : Cell
deriving Repr, DecidableEq

/-- The normalized request record `build_request_row` emits for an
eligible row. -/
structure RequestRow where
  first_name : Option String
  last_name : Option String
  linkedin_url : Option String
  organization_name : Option String
  domain : Option String
deriving Repr, DecidableEq

/-- Embedding of `build_request_row` (app.py lines 81-97): replace NaN by
`None`, derive the domain, return `None` (`.ok none`) when `first_name`
or `last_name` is falsy or both `domain` and `linkedin_url` are falsy,
and otherwise emit the record with each field stripped. -/
def build_request_row (row : Row) : Except Exc (Option RequestRow) :=
  let first_name := notnaOpt row.firstName
  let last_name := notnaOpt row.lastName
  let linkedin_url := notnaOpt row.linkedinUrl
  let organization_name := notnaOpt row.companyName
  match extract_domain row.companyWebsite with
  | .error e => .error e
  | .ok domain =>
    if !(optCellTruthy first_name) || !(optCellTruthy last_name) ||
        (!(optStrTruthy domain) && !(optCellTruthy linkedin_url)) then
      .ok none
    else
      match stripIfTruthy first_name with
      | .error e => .error e
      | .ok fn =>
        match stripIfTruthy last_name with
        | .error e => .error e
        | .ok ln =>
          match stripIfTruthy linkedin_url with
          | .error e => .error e
          | .ok lu =>
            match stripIfTruthy organization_name with
            | .error e => .error e
            | .ok org =>
              .ok (some { first_name := fn, last_name := ln, linkedin_url := lu,
                          organization_name := org, domain := domain })

/-- The JSON body of a status-200 response: either text that fails to parse
as JSON (`response.json()` raises), or a parsed object that may or may not
carry a `matches` array; each match is represented by its optional `email`
field (`match.get("email", default)`). -/
inductive RespBody where
  | malformed : RespBody
  | fields (matchList : Option (List (Option String))) : RespBody
deriving Repr, DecidableEq

/-- The observable outcome of the network interaction of one batch call:
either `requests.post` returned a response (status, text, body), or it
raised an exception. -/
inductive NetOutcome where
  | resp (status : Nat) (text : String) (body : RespBody) : NetOutcome
  | postError (e : Exc) : NetOutcome
deriving Repr, DecidableEq

/-- The fixed message of the fatal quota exception
(`raise Exception("Insufficient Apollo credits. ...")`, app.py line 123). -/
def quotaMsg : String := "Insufficient Apollo credits. Please upgrade your plan."

/-- Model of `"insufficient credits" in error_msg.lower()` (app.py line 121). -/
def hasInsufficientCredits (text : String) : Bool :=
  listContains "insufficient credits".toList (pyLower text).toList

/-- The `try` body of `fetch_bulk_emails` (app.py lines 109-135): classify
the response by status code, raise the fatal quota exception when a
non-success body mentions insufficient credits, and on success map the
`matches` array positionally (a missing `email` field defaults to
"No email found"; a missing `matches` key yields one "No email found"
per batch record). -/
def fetch_try (batchLen : Nat) (net : NetOutcome) : Except Exc (List String) :=
  match net with
  | .postError e => .error e
  | .resp status text body =>
    if status == 422 then
      .ok (List.replicate batchLen "Validation Error")
    else if status != 200 then
      if hasInsufficientCredits text then .error (.appError quotaMsg)
      else .ok (List.replicate batchLen "API Error")
    else
      match body with
      | .malformed => .error (.jsonDecodeError "Expecting value")
      | .fields none => .ok (List.replicate batchLen "No email found")
      | .fields (some ms) => .ok (ms.map (fun m => m.getD "No email found"))

/-- Embedding of `fetch_bulk_emails` (app.py lines 99-143): the `try` body
wrapped in the two handlers — `requests.exceptions.HTTPError` is caught and
mapped to one "HTTP Error" per batch record, every other exception is
re-raised (the code comment says "Re-raise the exception to stop
processing"). -/
def fetch_bulk_emails (batch : List RequestRow) (net : NetOutcome) : Except Exc (List String) :=
  match fetch_try batch.length net with
  | .ok es => .ok es
  | .error (.httpError _) => .ok (List.replicate batch.length "HTTP Error")
  | .error e => .error e

/-- Whether a network outcome is the fatal quota condition: a non-422,
non-200 response whose body mentions "insufficient credits"
(case-insensitively). -/
def isQuotaOutcome : NetOutcome → Bool
  | .resp status text _ => !(status == 422) && !(status == 200) && hasInsufficientCredits text
  | .postError _ => false

/-- Build one batch's request list (app.py lines 179-187): run
`build_request_row` on each row of the batch in order, keep the truthy
results paired with their original row index, and propagate any raised
exception. -/
def buildBatch : List (Nat × Row) → Except Exc (List (Nat × RequestRow))
  | [] => .ok []
  | (i, r) :: rest =>
    match build_request_row r with
    | .error e => .error e
    | .ok none => buildBatch rest
    | .ok (some req) =>
      match buildBatch rest with
      | .error e => .error e
      | .ok l => .ok ((i, req) :: l)

/-- Model of `df.loc[batch_indexes, "Email"] = emails` restricted to its
write effect: set the email column at each listed index to the paired
value, in order. -/
def setEmails (emails : List String) : List Nat → List String → List String
  | [], _ => emails
  | _ :: _, [] => emails
  | i :: is, v :: vs => setEmails (emails.set i v) is vs

/-- Bounded-fuel chunking; with fuel at least the list length it splits the
list into consecutive chunks of `n`. -/
def chunksFuel (n : Nat) : Nat → List α → List (List α)
  | 0, _ => []
  | _, [] => []
  | fuel + 1, x :: xs => ((x :: xs).take n) :: chunksFuel n fuel ((x :: xs).drop n)

/-- Model of `for start in range(0, total, BATCH_SIZE): df.iloc[start:start+BATCH_SIZE]`
(app.py lines 175-176): the list of consecutive chunks of size `n` (the
last chunk may be smaller). -/
def chunks (n : Nat) (l : List α) : List (List α) := chunksFuel n l.length l

/-- The fixed batch size (app.py line 168). -/
def BATCH_SIZE : Nat := 10

/-- The batch loop of `process_csv` (app.py lines 175-200), over the list
of batches paired with their batch number.  For each batch: build the
request list (skipping ineligible rows), skip the API call when it is
empty, otherwise call `fetch_bulk_emails` with the oracle outcome for this
batch number, merge the returned emails at the original row indices
(raising `ValueError` when the lengths differ, as the pandas assignment
does), and count the submitted rows.  Returns the trace of submitted
calls and either the final email column with the processed-row count, or
the first raised exception. -/
def runBatches : List (Nat × List (Nat × Row)) → (Nat → NetOutcome) → List String → Nat →
    List (Nat × List (Nat × RequestRow)) × Except Exc (List String × Nat)
  | [], _, emails, n => ([], .ok (emails, n))
  | (bi, batch) :: rest, net, emails, n =>
    match buildBatch batch with
    | .error e => ([], .error e)
    | .ok reqs =>
      if reqs.isEmpty then runBatches rest net emails n
      else
        match fetch_bulk_emails (reqs.map Prod.snd) (net bi) with
        | .error e => ([(bi, reqs)], .error e)
        | .ok es =>
          if es.length = reqs.length then
            ((bi, reqs) ::
              (runBatches rest net (setEmails emails (reqs.map Prod.fst) es) (n + reqs.length)).1,
             (runBatches rest net (setEmails emails (reqs.map Prod.fst) es) (n + reqs.length)).2)
          else ([(bi, reqs)], .error (.valueError "Must have equal len keys and value"))

/-- One `processing_status[process_id]` value (app.py lines 150-156,
210-216, 224-230). -/
structure ProcStatus where
  download_ready : Bool
  download_file : Option String
  download_filename : Option String
  error : Bool
  error_message : Option String
deriving Repr, DecidableEq

/-- One History Log entry as appended by `add_history_entry`, restricted to
the fields the claims mention. -/
structure HistoryEntry where
  status : String
  rows_processed : Nat
  output_filename : String
deriving Repr, DecidableEq

/-- The observable outcome of one `process_csv` run: the successive values
taken by `processing_status[process_id]`, the appended History Log entry,
the written output table (rows plus email column; only on success), and
the trace of batches submitted to the API. -/
structure JobOutcome where
  statuses : List ProcStatus
  historyEntry : Option HistoryEntry
  outputFile : Option (List Row × List String)
  calls : List (Nat × List (Nat × RequestRow))
deriving Repr, DecidableEq

/-- The initial `processing_status` entry (app.py lines 150-156). -/
def initStatus : ProcStatus :=
  { download_ready := false, download_file := none, download_filename := none,
    error := false, error_message := none }

/-- The `processing_status` entry written on success (app.py lines 210-216). -/
def readyStatus : ProcStatus :=
  { download_ready := true, download_file := some "out.csv",
    download_filename := some "output_in.csv", error := false, error_message := none }

/-- The `processing_status` entry written in the `except` handler
(app.py lines 224-230). -/
def failStatus (m : String) : ProcStatus :=
  { download_ready := false, download_file := none, download_filename := none,
    error := true, error_message := some m }

/-- Embedding of `process_csv` (app.py lines 145-232).  The input is the
result of reading the CSV and selecting the required columns (an
exception there is caught by the same handler), and `net` gives every
batch number its network outcome.  On success the full table plus email
column is written, a completed history entry records the processed-row
count, and the status becomes ready; on any raised exception no output is
written, a failed history entry with zero rows is appended, and the
status carries the error message. -/
def process_csv (input : Except Exc (List Row)) (net : Nat → NetOutcome) : JobOutcome :=
  match input with
  | .error e =>
    { statuses := [initStatus, failStatus e.msg],
      historyEntry := some { status := "failed", rows_processed := 0, output_filename := "" },
      outputFile := none, calls := [] }
  | .ok rows =>
    match (runBatches ((chunks BATCH_SIZE rows.enum).enum) net (List.replicate rows.length "") 0).2 with
    | .error e =>
      { statuses := [initStatus, failStatus e.msg],
        historyEntry := some { status := "failed", rows_processed := 0, output_filename := "" },
        outputFile := none,
        calls := (runBatches ((chunks BATCH_SIZE rows.enum).enum) net
          (List.replicate rows.length "") 0).1 }
    | .ok (emails, n) =>
      { statuses := [initStatus, readyStatus],
        historyEntry := some { status := "completed", rows_processed := n, output_filename := "out.csv" },
        outputFile := some (rows, emails),
        calls := (runBatches ((chunks BATCH_SIZE rows.enum).enum) net
          (List.replicate rows.length "") 0).1 }

/-- The poller's view of one status entry (the `/check_download` route,
app.py lines 310-327). -/
inductive DlResp where
  | notReady : DlResp
  | errorResp (msg : Option String) : DlResp
  | ready (file : Option String) (filename : Option String) : DlResp
deriving Repr, DecidableEq

/-- Embedding of the `check_download` classification of one status entry:
an error is reported first (with its message only), then a ready download
(with the file reference), otherwise not-ready. -/
def check_download (s : ProcStatus) : DlResp :=
  if s.error then .errorResp s.error_message
  else if s.download_ready then .ready s.download_file s.download_filename
  else .notReady

/-! ## Helper lemmas -/

/-- The only error the modelled `urlparse` produces is
`ValueError("Invalid IPv6 URL")`. -/
theorem urlparseNetlocPath_error_eq {s : String} {e : Exc}
    (h : urlparseNetlocPath s = .error e) : e = .valueError "Invalid IPv6 URL" := by
  unfold urlparseNetlocPath at h
  cases hn : splitNetloc (removeScheme s.toList) with
  | error e2 =>
    simp only [hn] at h
    have he2 : e2 = .valueError "Invalid IPv6 URL" := by
      unfold splitNetloc at hn
      by_cases h2 : (removeScheme s.toList).take 2 = ['/', '/']
      · rw [if_pos h2] at hn
        by_cases h3 : ((((removeScheme s.toList).drop 2).takeWhile netlocChar).contains '[' !=
            (((removeScheme s.toList).drop 2).takeWhile netlocChar).contains ']') = true
        · rw [if_pos h3] at hn
          injection hn with h4
          exact h4.symm
        · rw [if_neg h3] at hn
          exact absurd hn (by simp)
      · rw [if_neg h2] at hn
        exact absurd hn (by simp)
    injection h with h5
    exact h5 ▸ he2
  | ok np =>
    simp only [hn] at h
    exact absurd h (by simp)

/-- The only exception `extract_domain` can raise is `urlparse`'s
`ValueError("Invalid IPv6 URL")`. -/
theorem extract_domain_error_eq {c : Cell} {e : Exc}
    (h : extract_domain c = .error e) : e = .valueError "Invalid IPv6 URL" := by
  cases c with
  | nan => exact absurd h (by simp [extract_domain, pdIsna])
  | num n => exact absurd h (by simp [extract_domain, pdIsna, isStrCell])
  | str s =>
    unfold extract_domain at h
    simp only [pdIsna, isStrCell, cellStrip, Bool.not_true, Bool.false_eq_true, if_false,
      Bool.not_false, if_true] at h
    by_cases hemp : (pyStrip s == "") = true
    · rw [if_pos hemp] at h
      exact absurd h (by simp)
    · rw [if_neg hemp] at h
      cases hp : urlparseNetlocPath (pyStrip s) with
      | error e2 =>
        simp only [hp] at h
        injection h with h5
        exact h5 ▸ urlparseNetlocPath_error_eq hp
      | ok np =>
        simp only [hp] at h
        exact absurd h (by simp)

/-- Truthiness of a `pd.notna`-guarded cell is the negation of `cellFalsy`. -/
theorem optCellTruthy_notnaOpt (c : Cell) : optCellTruthy (notnaOpt c) = !(cellFalsy c) := by
  cases c <;> rfl

/-- An optional string is falsy exactly when it is `none` or the empty string. -/
theorem optStrTruthy_eq_false {d : Option String} :
    optStrTruthy d = false ↔ d = none ∨ d = some "" := by
  cases d with
  | none => simp [optStrTruthy]
  | some s => simp [optStrTruthy]

/-- Every entry of a successfully built batch comes from a batch row on
which the validator returned that request record. -/
theorem buildBatch_mem {b : List (Nat × Row)} {reqs : List (Nat × RequestRow)}
    (h : buildBatch b = .ok reqs) :
    ∀ q ∈ reqs, ∃ ir, ir ∈ b ∧ ir.1 = q.1 ∧ build_request_row ir.2 = .ok (some q.2) := by
  induction b generalizing reqs with
  | nil =>
    simp only [buildBatch, Except.ok.injEq] at h
    subst h
    simp
  | cons hd tl ih =>
    obtain ⟨i, r⟩ := hd
    unfold buildBatch at h
    cases hbr : build_request_row r with
    | error e => simp only [hbr] at h; exact absurd h (by simp)
    | ok o =>
      simp only [hbr] at h
      cases o with
      | none =>
        intro q hq
        obtain ⟨ir, hmem, h1, h2⟩ := ih h q hq
        exact ⟨ir, List.mem_cons_of_mem _ hmem, h1, h2⟩
      | some req =>
        cases hrest : buildBatch tl with
        | error e => simp only [hrest] at h; exact absurd h (by simp)
        | ok l =>
          simp only [hrest, Except.ok.injEq] at h
          subst h
          intro q hq
          rcases List.mem_cons.mp hq with hq | hq
          · exact ⟨(i, r), List.mem_cons_self .., by rw [hq], by rw [hq]; exact hbr⟩
          · obtain ⟨ir, hmem, h1, h2⟩ := ih hrest q hq
            exact ⟨ir, List.mem_cons_of_mem _ hmem, h1, h2⟩

/-- Merging a batch's emails does not change the length of the column. -/
theorem setEmails_length (em : List String) (is : List Nat) (vs : List String) :
    (setEmails em is vs).length = em.length := by
  induction is generalizing em vs with
  | nil => simp [setEmails]
  | cons i is ih =>
    cases vs with
    | nil => rfl
    | cons v vs =>
      rw [show setEmails em (i :: is) (v :: vs) = setEmails (em.set i v) is vs from rfl,
        ih (em.set i v) vs, List.length_set]

/-- Merging a batch's emails leaves every index outside the batch
unchanged. -/
theorem setEmails_getElem?_not_mem {em : List String} {is : List Nat} {vs : List String}
    {j : Nat} (h : j ∉ is) : (setEmails em is vs)[j]? = em[j]? := by
  induction is generalizing em vs with
  | nil => simp [setEmails]
  | cons i is ih =>
    cases vs with
    | nil => rfl
    | cons v vs =>
      have hji : i ≠ j := fun he => h (he ▸ List.mem_cons_self ..)
      have hj : j ∉ is := fun hm => h (List.mem_cons_of_mem _ hm)
      rw [show setEmails em (i :: is) (v :: vs) = setEmails (em.set i v) is vs from rfl,
        ih hj, List.getElem?_set_ne hji]

/-- Every element of a chunk is an element of the chunked list. -/
theorem chunksFuel_sub {n : Nat} : ∀ (fuel : Nat) (l b : List α),
    b ∈ chunksFuel n fuel l → ∀ x ∈ b, x ∈ l := by
  intro fuel
  induction fuel with
  | zero => intro l b hb; simp [chunksFuel] at hb
  | succ f ih =>
    intro l b hb x hx
    cases l with
    | nil => simp [chunksFuel] at hb
    | cons a as =>
      simp only [chunksFuel] at hb
      rcases List.mem_cons.mp hb with h | h
      · subst h; exact List.take_subset _ _ hx
      · exact List.drop_subset _ _ (ih _ _ h x hx)

/-- Every entry of every enumerated batch of a table points back to its
own row: index `i` carries row `rows[i]`. -/
theorem batches_wf (rows : List Row) :
    ∀ pb ∈ (chunks BATCH_SIZE rows.enum).enum, ∀ q ∈ pb.2, rows[q.1]? = some q.2 := by
  rintro ⟨bi, b⟩ hpb ⟨i, r⟩ hq
  have hb : b ∈ chunks BATCH_SIZE rows.enum := by
    have := List.mk_mem_enum_iff_getElem?.mp hpb
    exact List.getElem?_mem this
  have : (i, r) ∈ rows.enum := chunksFuel_sub _ _ _ hb _ hq
  exact List.mk_mem_enum_iff_getElem?.mp this

/-- A successful batch loop leaves the email column's length unchanged. -/
theorem runBatches_length {bs : List (Nat × List (Nat × Row))} {net : Nat → NetOutcome}
    {em : List String} {n : Nat} {em' : List String} {n' : Nat}
    (h : (runBatches bs net em n).2 = .ok (em', n')) : em'.length = em.length := by
  induction bs generalizing em n with
  | nil =>
    simp only [runBatches, Except.ok.injEq, Prod.mk.injEq] at h
    rw [h.1]
  | cons hd tl ih =>
    obtain ⟨bi, batch⟩ := hd
    unfold runBatches at h
    cases hbb : buildBatch batch with
    | error e => simp only [hbb] at h; exact absurd h (by simp)
    | ok reqs =>
      simp only [hbb] at h
      by_cases hre : reqs.isEmpty
      · rw [if_pos hre] at h
        exact ih h
      · rw [if_neg hre] at h
        cases hf : fetch_bulk_emails (reqs.map Prod.snd) (net bi) with
        | error e => simp only [hf] at h; exact absurd h (by simp)
        | ok es =>
          simp only [hf] at h
          by_cases hlen : es.length = reqs.length
          · rw [if_pos hlen] at h
            rw [ih h, setEmails_length]
          · rw [if_neg hlen] at h
            simp at h

/-- Every call in the batch loop's trace is a successfully built request
list of one of the supplied batches. -/
theorem runBatches_calls_from {bs : List (Nat × List (Nat × Row))} {net : Nat → NetOutcome}
    {em : List String} {n : Nat} :
    ∀ p ∈ (runBatches bs net em n).1, ∃ b, (p.1, b) ∈ bs ∧ buildBatch b = .ok p.2 := by
  induction bs generalizing em n with
  | nil => simp [runBatches]
  | cons hd tl ih =>
    obtain ⟨bi, batch⟩ := hd
    intro p hp
    unfold runBatches at hp
    cases hbb : buildBatch batch with
    | error e => simp only [hbb] at hp; simp at hp
    | ok reqs =>
      simp only [hbb] at hp
      by_cases hre : reqs.isEmpty
      · rw [if_pos hre] at hp
        obtain ⟨b, hb, hok⟩ := ih p hp
        exact ⟨b, List.mem_cons_of_mem _ hb, hok⟩
      · rw [if_neg hre] at hp
        cases hf : fetch_bulk_emails (reqs.map Prod.snd) (net bi) with
        | error e =>
          simp only [hf, List.mem_singleton] at hp
          subst hp
          exact ⟨batch, List.mem_cons_self .., hbb⟩
        | ok es =>
          simp only [hf] at hp
          by_cases hlen : es.length = reqs.length
          · rw [if_pos hlen] at hp
            rcases List.mem_cons.mp hp with hp | hp
            · subst hp
              exact ⟨batch, List.mem_cons_self .., hbb⟩
            · obtain ⟨b, hb, hok⟩ := ih p hp
              exact ⟨b, List.mem_cons_of_mem _ hb, hok⟩
          · rw [if_neg hlen] at hp
            simp only [List.mem_singleton] at hp
            subst hp
            exact ⟨batch, List.mem_cons_self .., hbb⟩

/-- A successful batch loop never touches the email of a row on which the
validator returned None: its cell keeps its previous value. -/
theorem runBatches_preserve {rows : List Row} {bs : List (Nat × List (Nat × Row))}
    {net : Nat → NetOutcome} {em : List String} {n : Nat} {em' : List String} {n' : Nat}
    (hwf : ∀ pb ∈ bs, ∀ q ∈ pb.2, rows[q.1]? = some q.2)
    (h : (runBatches bs net em n).2 = .ok (em', n'))
    {j : Nat} {r : Row} (hj : rows[j]? = some r)
    (hnone : build_request_row r = .ok none) :
    em'[j]? = em[j]? := by
  induction bs generalizing em n with
  | nil =>
    simp only [runBatches, Except.ok.injEq, Prod.mk.injEq] at h
    rw [h.1]
  | cons hd tl ih =>
    obtain ⟨bi, batch⟩ := hd
    have hwfhd : ∀ q ∈ batch, rows[q.1]? = some q.2 := hwf _ (List.mem_cons_self ..)
    have hwftl : ∀ pb ∈ tl, ∀ q ∈ pb.2, rows[q.1]? = some q.2 :=
      fun pb hpb => hwf pb (List.mem_cons_of_mem _ hpb)
    unfold runBatches at h
    cases hbb : buildBatch batch with
    | error e => simp only [hbb] at h; exact absurd h (by simp)
    | ok reqs =>
      simp only [hbb] at h
      by_cases hre : reqs.isEmpty
      · rw [if_pos hre] at h
        exact ih hwftl h
      · rw [if_neg hre] at h
        cases hf : fetch_bulk_emails (reqs.map Prod.snd) (net bi) with
        | error e => simp only [hf] at h; exact absurd h (by simp)
        | ok es =>
          simp only [hf] at h
          by_cases hlen : es.length = reqs.length
          · rw [if_pos hlen] at h
            have hnotin : j ∉ reqs.map Prod.fst := by
              intro hin
              obtain ⟨q, hq, hq1⟩ := List.mem_map.mp hin
              obtain ⟨ir, hmem, h1, h2⟩ := buildBatch_mem hbb q hq
              have hrow : rows[q.1]? = some ir.2 := by
                rw [← h1]; exact hwfhd ir hmem
              rw [hq1, hj] at hrow
              rw [(Option.some.injEq ..).mp hrow] at hnone
              rw [hnone] at h2
              simp at h2
            rw [ih hwftl h, setEmails_getElem?_not_mem hnotin]
          · rw [if_neg hlen] at h
            simp at h

/-- A successful batch loop's processed-row count is the starting count
plus the total size of the submitted batches. -/
theorem runBatches_count {bs : List (Nat × List (Nat × Row))} {net : Nat → NetOutcome}
    {em : List String} {n : Nat} {em' : List String} {n' : Nat}
    (h : (runBatches bs net em n).2 = .ok (em', n')) :
    n' = n + (((runBatches bs net em n).1).map (fun p => p.2.length)).sum := by
  induction bs generalizing em n with
  | nil =>
    simp only [runBatches, Except.ok.injEq, Prod.mk.injEq] at h
    simp [runBatches, h.2]
  | cons hd tl ih =>
    obtain ⟨bi, batch⟩ := hd
    unfold runBatches
    unfold runBatches at h
    cases hbb : buildBatch batch with
    | error e => simp only [hbb] at h; exact absurd h (by simp)
    | ok reqs =>
      simp only [hbb] at h ⊢
      by_cases hre : reqs.isEmpty
      · rw [if_pos hre] at h ⊢
        exact ih h
      · rw [if_neg hre] at h ⊢
        cases hf : fetch_bulk_emails (reqs.map Prod.snd) (net bi) with
        | error e => simp only [hf] at h; exact absurd h (by simp)
        | ok es =>
          simp only [hf] at h ⊢
          by_cases hlen : es.length = reqs.length
          · rw [if_pos hlen] at h ⊢
            have := ih h
            simp only [List.map_cons, List.sum_cons]
            omega
          · rw [if_neg hlen] at h
            simp at h

/-- On the fatal quota condition the enrichment call raises the fixed
quota exception. -/
theorem fetch_quota {batch : List RequestRow} {o : NetOutcome}
    (h : isQuotaOutcome o = true) :
    fetch_bulk_emails batch o = .error (.appError quotaMsg) := by
  cases o with
  | postError e => simp [isQuotaOutcome] at h
  | resp st t body =>
    simp only [isQuotaOutcome, Bool.and_eq_true, Bool.not_eq_true', beq_eq_false_iff_ne,
      ne_eq] at h
    obtain ⟨⟨h422, h200⟩, hic⟩ := h
    simp [fetch_bulk_emails, fetch_try, h422, h200, hic]

/-- Every call in the trace of the batch loop over batches numbered from
`m` has batch number at least `m`. -/
theorem runBatches_calls_ge {cs : List (List (Nat × Row))} {m : Nat} {net : Nat → NetOutcome}
    {em : List String} {n : Nat} :
    ∀ p ∈ (runBatches (cs.enumFrom m) net em n).1, m ≤ p.1 := by
  induction cs generalizing m em n with
  | nil => simp [runBatches]
  | cons c tl ih =>
    intro p hp
    rw [List.enumFrom_cons] at hp
    unfold runBatches at hp
    cases hbb : buildBatch c with
    | error e => simp only [hbb] at hp; simp at hp
    | ok reqs =>
      simp only [hbb] at hp
      by_cases hre : reqs.isEmpty
      · rw [if_pos hre] at hp
        exact le_of_lt (lt_of_lt_of_le (Nat.lt_succ_self m) (ih p hp))
      · rw [if_neg hre] at hp
        cases hf : fetch_bulk_emails (reqs.map Prod.snd) (net m) with
        | error e =>
          simp only [hf, List.mem_singleton] at hp
          rw [hp]
        | ok es =>
          simp only [hf] at hp
          by_cases hlen : es.length = reqs.length
          · rw [if_pos hlen] at hp
            rcases List.mem_cons.mp hp with hp | hp
            · rw [hp]
            · exact le_of_lt (lt_of_lt_of_le (Nat.lt_succ_self m) (ih p hp))
          · rw [if_neg hlen] at hp
            simp only [List.mem_singleton] at hp
            rw [hp]

/-- If the batch loop submits a batch whose network outcome is the fatal
quota condition, the loop ends with the quota exception and submits no
batch numbered after it. -/
theorem runBatches_quota {cs : List (List (Nat × Row))} {m : Nat} {net : Nat → NetOutcome}
    {em : List String} {n : Nat} {k : Nat} {b : List (Nat × RequestRow)}
    (hmem : (k, b) ∈ (runBatches (cs.enumFrom m) net em n).1)
    (hq : isQuotaOutcome (net k) = true) :
    (runBatches (cs.enumFrom m) net em n).2 = .error (.appError quotaMsg) ∧
    ∀ p ∈ (runBatches (cs.enumFrom m) net em n).1, p.1 ≤ k := by
  induction cs generalizing m em n with
  | nil => simp [runBatches] at hmem
  | cons c tl ih =>
    rw [List.enumFrom_cons] at hmem ⊢
    unfold runBatches at hmem ⊢
    cases hbb : buildBatch c with
    | error e => simp only [hbb] at hmem; simp at hmem
    | ok reqs =>
      simp only [hbb] at hmem ⊢
      by_cases hre : reqs.isEmpty
      · rw [if_pos hre] at hmem ⊢
        exact ih hmem
      · rw [if_neg hre] at hmem ⊢
        cases hf : fetch_bulk_emails (reqs.map Prod.snd) (net m) with
        | error e =>
          simp only [hf, List.mem_singleton, Prod.mk.injEq] at hmem
          obtain ⟨hkm, hbr⟩ := hmem
          subst hkm
          have := @fetch_quota (reqs.map Prod.snd) _ hq
          rw [hf] at this
          simp only [hf, Except.error.injEq] at this ⊢
          refine ⟨by rw [this], ?_⟩
          intro p hp
          simp only [List.mem_singleton] at hp
          rw [hp]
        | ok es =>
          simp only [hf] at hmem ⊢
          by_cases hlen : es.length = reqs.length
          · rw [if_pos hlen] at hmem ⊢
            rcases List.mem_cons.mp hmem with hmem | hmem
            · exfalso
              have hkm : k = m := congrArg Prod.fst hmem
              subst hkm
              have := @fetch_quota (reqs.map Prod.snd) _ hq
              rw [hf] at this
              exact absurd this (by simp)
            · obtain ⟨hres, hbound⟩ := ih hmem
              refine ⟨hres, ?_⟩
              intro p hp
              rcases List.mem_cons.mp hp with hp | hp
              · rw [hp]
                exact le_trans (le_of_lt (Nat.lt_succ_self m)) (runBatches_calls_ge _ hmem)
              · exact hbound p hp
          · rw [if_neg hlen] at hmem ⊢
            simp only [List.mem_singleton, Prod.mk.injEq] at hmem
            obtain ⟨hkm, hbr⟩ := hmem
            subst hkm
            have := @fetch_quota (reqs.map Prod.snd) _ hq
            rw [hf] at this
            exact absurd this (by simp)

/-! ## Claim theorems: the Record Validator and domain derivation -/

/-- The concrete request record for a row with first name "Ann", last name
"Lee" and website `https://foo.com`. -/
def reqAnn : RequestRow :=
  { first_name := some "Ann", last_name := some "Lee", linkedin_url := none,
    organization_name := none, domain := some "foo.com" }

/-- A second concrete request record, with a LinkedIn URL and no domain. -/
def reqBob : RequestRow :=
  { first_name := some "Bob", last_name := some "Roy",
    linkedin_url := some "linkedin.com/in/bob", organization_name := none, domain := none }

/-- C6 counterexample: a malformed URL does not generally yield an absent
domain: the scheme-less string "not-a-url" comes back through the path
fallback as the present domain "not-a-url", and the bracket-mismatched
URL "http://[" makes `urlparse` raise `ValueError` instead of yielding an
absent domain. -/
theorem malformed_url_cex :
    extract_domain (Cell.str "not-a-url") = .ok (some "not-a-url") ∧
    extract_domain (Cell.str "not-a-url") ≠ .ok none ∧
    extract_domain (Cell.str "http://[") = .error (.valueError "Invalid IPv6 URL") := by
  decide

/-- C6 as amended: domain derivation parses the host component, strips a
leading "www." and surrounding slashes (`https://www.example.com/path`
yields `example.com`), and a blank string yields an absent domain; but a
malformed URL is not mapped to an absent domain: a scheme-less string
falls back to the path (after `urlparse`'s params split), and a
bracket-mismatched host raises `ValueError("Invalid IPv6 URL")`. -/
theorem extract_domain_behavior :
    extract_domain (Cell.str "https://www.example.com/path") = .ok (some "example.com") ∧
    extract_domain (Cell.str "") = .ok none ∧
    extract_domain (Cell.str "example.com/") = .ok (some "example.com") ∧
    extract_domain (Cell.str "not-a-url") = .ok (some "not-a-url") ∧
    extract_domain (Cell.str "example.com;x") = .ok (some "example.com") ∧
    extract_domain (Cell.str "http://[") = .error (.valueError "Invalid IPv6 URL") := by
  decide

/-- C10 counterexample: `extract_domain` is not total over cell values: on
the string cell "http://[" it raises `urlparse`'s
`ValueError("Invalid IPv6 URL")` instead of returning a domain. -/
theorem ipv6_url_not_total_cex :
    extract_domain (Cell.str "http://[") = .error (.valueError "Invalid IPv6 URL") ∧
    extract_domain (Cell.str "http://[") ≠ .ok none := by decide

/-- C10 as amended: a missing (NaN) or non-string cell yields an absent
domain without raising, so such cells cannot fail the job; but a string
cell with a bracket-mismatched host (e.g. "http://[") makes `urlparse`
raise `ValueError("Invalid IPv6 URL")`, which propagates — and that
`ValueError` is the only exception domain derivation itself can raise. -/
theorem extract_domain_nonstring_safe :
    (∀ c : Cell, isStrCell c = false → extract_domain c = .ok none) ∧
    extract_domain (Cell.str "http://[") = .error (.valueError "Invalid IPv6 URL") ∧
    (∀ (c : Cell) (e : Exc), extract_domain c = .error e →
      e = .valueError "Invalid IPv6 URL") := by
  refine ⟨fun c h => ?_, by decide, fun c e h => extract_domain_error_eq h⟩
  cases c with
  | nan => rfl
  | num n => rfl
  | str s => simp [isStrCell] at h

/-- C10 witness: a numeric cell evaluates to an absent domain, and the
concrete exception raised on "http://[" is the IPv6 `ValueError`. -/
theorem extract_domain_nonstring_safe_witness :
    extract_domain (Cell.num 42) = .ok none ∧
    (Exc.valueError "Invalid IPv6 URL" : Exc) = .valueError "Invalid IPv6 URL" :=
  ⟨extract_domain_nonstring_safe.1 (Cell.num 42) rfl,
   extract_domain_nonstring_safe.2.2 (Cell.str "http://[")
     (Exc.valueError "Invalid IPv6 URL") (by decide)⟩

/-- C5 counterexample: a row whose first name is the whitespace-only
string " " (with a nonempty LinkedIn URL) is NOT treated as lacking
first_name: the validator accepts it (emitting the stripped empty string)
instead of returning None. -/
theorem whitespace_not_absent_cex :
    build_request_row ⟨.str " ", .str "Lee", .str "x", .nan, .nan⟩ =
      .ok (some { first_name := some "", last_name := some "Lee", linkedin_url := some "x",
                  organization_name := none, domain := none }) ∧
    build_request_row ⟨.str " ", .str "Lee", .str "x", .nan, .nan⟩ ≠ .ok none := by decide

/-- C5 as amended: trimming happens in the domain derivation (a
whitespace-only website yields an absent domain) and in the fields of the
emitted record, but the eligibility decision tests the untrimmed values:
any nonempty first_name, last_name and linkedin_url strings — including
whitespace-only ones — count as present. -/
theorem trim_scope :
    (∀ s : String, pyStrip s = "" → extract_domain (Cell.str s) = .ok none) ∧
    (∀ f l u : String, f ≠ "" → l ≠ "" → u ≠ "" →
      build_request_row ⟨.str f, .str l, .str u, .nan, .nan⟩ =
        .ok (some { first_name := some (pyStrip f), last_name := some (pyStrip l),
                    linkedin_url := some (pyStrip u), organization_name := none,
                    domain := none })) := by
  constructor
  · intro s hs
    unfold extract_domain
    simp [pdIsna, isStrCell, cellStrip, hs]
  · intro f l u hf hl hu
    unfold build_request_row
    simp [extract_domain, pdIsna, notnaOpt, optCellTruthy, optStrTruthy, cellFalsy,
      stripIfTruthy, cellStrip, Except.map, hf, hl, hu]

/-- C5 witness: instantiating the amended claim at a whitespace-only
website and at a whitespace-only first name. -/
theorem trim_scope_witness :
    extract_domain (Cell.str "  ") = .ok none ∧
    build_request_row ⟨.str " ", .str "Lee", .str "x", .nan, .nan⟩ =
      .ok (some { first_name := some (pyStrip " "), last_name := some (pyStrip "Lee"),
                  linkedin_url := some (pyStrip "x"), organization_name := none,
                  domain := none }) :=
  ⟨trim_scope.1 "  " (by decide), trim_scope.2 " " "Lee" "x" (by decide) (by decide) (by decide)⟩

/-! ## Claim theorems: the Enrichment Client -/

/-- C4 counterexample: a connection fault during the batch call is NOT
mapped to per-row "HTTP Error" results — it propagates out of
`fetch_bulk_emails` (the generic handler re-raises), aborting the job. -/
theorem transport_error_cex :
    fetch_bulk_emails [reqAnn] (.postError (.connectionError "Connection refused")) =
      .error (.connectionError "Connection refused") ∧
    fetch_bulk_emails [reqAnn] (.postError (.connectionError "Connection refused")) ≠
      .ok ["HTTP Error"] := by decide

/-- C4 as amended: only a raised `requests.exceptions.HTTPError` is caught
and mapped to per-row "HTTP Error" results; a connection fault or a
malformed (non-JSON) success response propagates out of the call and
aborts the job. -/
theorem transport_error_behavior (batch : List RequestRow) (m t : String) :
    fetch_bulk_emails batch (.postError (.httpError m)) =
      .ok (List.replicate batch.length "HTTP Error") ∧
    fetch_bulk_emails batch (.postError (.connectionError m)) =
      .error (.connectionError m) ∧
    fetch_bulk_emails batch (.resp 200 t .malformed) =
      .error (.jsonDecodeError "Expecting value") := by
  refine ⟨rfl, rfl, ?_⟩
  simp [fetch_bulk_emails, fetch_try]

/-- C7 counterexample: on a success response whose `matches` array has
fewer entries than the batch, `fetch_bulk_emails` returns a list of the
length of `matches` (here 1), not of the batch (here 2). -/
theorem matches_shorter_cex :
    fetch_bulk_emails [reqAnn, reqBob] (.resp 200 "ok" (.fields (some [some "ann@foo.com"]))) =
      .ok ["ann@foo.com"] ∧
    [reqAnn, reqBob].length = 2 ∧ (["ann@foo.com"] : List String).length = 1 := by decide

/-- C7 as amended: on a success response the result list follows the
`matches` array positionally — its length is the length of `matches`,
which equals the batch length only when the API returns one match per
record; a match lacking the email field maps to "No email found", and a
response lacking `matches` yields one "No email found" per batch record. -/
theorem matches_positional (batch : List RequestRow) (t : String) (ms : List (Option String)) :
    fetch_bulk_emails batch (.resp 200 t (.fields (some ms))) =
      .ok (ms.map (fun m => m.getD "No email found")) ∧
    (ms.map (fun m => m.getD "No email found")).length = ms.length ∧
    fetch_bulk_emails batch (.resp 200 t (.fields none)) =
      .ok (List.replicate batch.length "No email found") := by
  refine ⟨?_, by simp, ?_⟩ <;> simp [fetch_bulk_emails, fetch_try]

/-! ## Claim theorems: the Batch Scheduler and Job Tracker -/

/-- The call trace of a job is the call trace of its batch loop, whether
the loop succeeds or raises. -/
theorem process_csv_calls (rows : List Row) (net : Nat → NetOutcome) :
    (process_csv (.ok rows) net).calls =
      (runBatches ((chunks BATCH_SIZE rows.enum).enum) net
        (List.replicate rows.length "") 0).1 := by
  unfold process_csv
  cases hres : (runBatches ((chunks BATCH_SIZE rows.enum).enum) net
      (List.replicate rows.length "") 0).2 with
  | error e => simp only [hres]
  | ok p =>
    obtain ⟨em, n⟩ := p
    simp only [hres]

/-- A job's status trace is always the initial entry followed by either
the ready entry or a failure entry. -/
theorem process_csv_statuses (input : Except Exc (List Row)) (net : Nat → NetOutcome) :
    (process_csv input net).statuses = [initStatus, readyStatus] ∨
    ∃ m, (process_csv input net).statuses = [initStatus, failStatus m] := by
  cases input with
  | error e => exact Or.inr ⟨e.msg, rfl⟩
  | ok rows =>
    unfold process_csv
    cases hres : (runBatches ((chunks BATCH_SIZE rows.enum).enum) net
        (List.replicate rows.length "") 0).2 with
    | error e => exact Or.inr ⟨e.msg, by simp only [hres]⟩
    | ok p =>
      obtain ⟨em, n⟩ := p
      exact Or.inl (by simp only [hres])

/-- Provided the domain derivation did not raise, the validator returns
`None` precisely under the ineligibility condition on the untrimmed
fields. -/
theorem build_request_row_none_iff (row : Row) (d : Option String)
    (hd : extract_domain row.companyWebsite = .ok d) :
    build_request_row row = .ok none ↔
      (cellFalsy row.firstName = true ∨ cellFalsy row.lastName = true ∨
       ((d = none ∨ d = some "") ∧ cellFalsy row.linkedinUrl = true)) := by
  unfold build_request_row
  simp only [hd]
  have hcond : (!(optCellTruthy (notnaOpt row.firstName)) ||
      !(optCellTruthy (notnaOpt row.lastName)) ||
      (!(optStrTruthy d) && !(optCellTruthy (notnaOpt row.linkedinUrl)))) = true ↔
      (cellFalsy row.firstName = true ∨ cellFalsy row.lastName = true ∨
       ((d = none ∨ d = some "") ∧ cellFalsy row.linkedinUrl = true)) := by
    simp only [optCellTruthy_notnaOpt, Bool.not_not, Bool.or_eq_true, Bool.and_eq_true,
      Bool.not_eq_true', optStrTruthy_eq_false]
    exact or_assoc
  cases hC : (!(optCellTruthy (notnaOpt row.firstName)) ||
      !(optCellTruthy (notnaOpt row.lastName)) ||
      (!(optStrTruthy d) && !(optCellTruthy (notnaOpt row.linkedinUrl)))) with
  | true =>
    exact ⟨fun _ => hcond.mp hC, fun _ => rfl⟩
  | false =>
    rw [if_neg (show ¬(false = true) by simp)]
    constructor
    · intro hres
      exfalso
      cases h1 : stripIfTruthy (notnaOpt row.firstName) with
      | error e => simp [h1] at hres
      | ok fn =>
        cases h2 : stripIfTruthy (notnaOpt row.lastName) with
        | error e => simp [h1, h2] at hres
        | ok ln =>
          cases h3 : stripIfTruthy (notnaOpt row.linkedinUrl) with
          | error e => simp [h1, h2, h3] at hres
          | ok lu =>
            cases h4 : stripIfTruthy (notnaOpt row.companyName) with
            | error e => simp [h1, h2, h3, h4] at hres
            | ok org => simp [h1, h2, h3, h4] at hres
    · intro hrhs
      exact absurd (hcond.mpr hrhs) (by simp [hC])

/-- C3 counterexample: a row with a missing first name but a
bracket-mismatched website URL makes the validator raise `urlparse`'s
`ValueError` — the domain is derived (app.py line 86) before the
eligibility check — instead of returning None without error. -/
theorem validator_raises_cex :
    build_request_row ⟨.nan, .str "Lee", .nan, .nan, .str "http://["⟩ =
      .error (.valueError "Invalid IPv6 URL") ∧
    build_request_row ⟨.nan, .str "Lee", .nan, .nan, .str "http://["⟩ ≠ .ok none := by
  decide

/-- C3 as amended: provided the domain derivation does not raise (it can,
with `urlparse`'s `ValueError` on a bracket-mismatched host, since it runs
before the eligibility check), the validator returns None exactly when
first_name or last_name is absent (missing or empty) or both the derived
domain and linkedin_url are absent, raising no error for such a row; and
every record submitted to the Enrichment Client in any batch of any job
comes from a row on which the validator returned a record — an ineligible
row is never submitted. -/
theorem validator_eligibility_guarded :
    (∀ (row : Row) (d : Option String), extract_domain row.companyWebsite = .ok d →
      (build_request_row row = .ok none ↔
        (cellFalsy row.firstName = true ∨ cellFalsy row.lastName = true ∨
         ((d = none ∨ d = some "") ∧ cellFalsy row.linkedinUrl = true)))) ∧
    (∀ (rows : List Row) (net : Nat → NetOutcome) (p : Nat × List (Nat × RequestRow)),
      p ∈ (process_csv (.ok rows) net).calls → ∀ q ∈ p.2,
        ∃ r : Row, rows[q.1]? = some r ∧ build_request_row r = .ok (some q.2)) := by
  refine ⟨build_request_row_none_iff, ?_⟩
  intro rows net p hp q hq
  rw [process_csv_calls] at hp
  obtain ⟨b, hb, hok⟩ := runBatches_calls_from p hp
  obtain ⟨ir, hmem, h1, h2⟩ := buildBatch_mem hok q hq
  have hw := batches_wf rows (p.1, b) hb ir hmem
  exact ⟨ir.2, by rw [← h1]; exact hw, h2⟩

/-- C3 witness: a row with a missing first name and a missing website is
judged ineligible by the eligibility characterization. -/
theorem validator_eligibility_guarded_witness :
    build_request_row ⟨.nan, .str "Lee", .str "x", .nan, .nan⟩ = .ok none :=
  (validator_eligibility_guarded.1 ⟨.nan, .str "Lee", .str "x", .nan, .nan⟩ none rfl).mpr
    (Or.inl (by decide))

/-- A concrete eligible row (first name, last name and website present). -/
def rowAnn : Row := ⟨.str "Ann", .str "Lee", .nan, .nan, .str "https://foo.com"⟩

/-- A concrete ineligible row (missing first name). -/
def rowBad : Row := ⟨.nan, .str "Lee", .nan, .nan, .nan⟩

/-- A network oracle answering every batch with one successful match. -/
def netOk : Nat → NetOutcome :=
  fun _ => .resp 200 "ok" (.fields (some [some "ann@foo.com"]))

/-- A network oracle answering every batch with an exhausted-credits
response. -/
def netQuota : Nat → NetOutcome :=
  fun _ => .resp 402 "Error: Insufficient Credits remaining" (.fields none)

/-- C1: whenever a job completes, the written output table has exactly the
input rows, in order, with one email column of the same length; a row on
which the validator returned None keeps the empty email it was
initialized with. -/
theorem output_table_shape (rows : List Row) (net : Nat → NetOutcome)
    (outRows : List Row) (emailCol : List String)
    (h : (process_csv (.ok rows) net).outputFile = some (outRows, emailCol)) :
    outRows = rows ∧ emailCol.length = rows.length ∧
    ∀ (i : Nat) (r : Row), rows[i]? = some r → build_request_row r = .ok none →
      emailCol[i]? = some "" := by
  unfold process_csv at h
  cases hres : (runBatches ((chunks BATCH_SIZE rows.enum).enum) net
      (List.replicate rows.length "") 0).2 with
  | error e => simp only [hres] at h; exact absurd h (by simp)
  | ok p =>
    obtain ⟨em, n⟩ := p
    simp only [hres, Option.some.injEq, Prod.mk.injEq] at h
    obtain ⟨hrows, hem⟩ := h
    subst hrows
    subst hem
    refine ⟨rfl, ?_, ?_⟩
    · rw [runBatches_length hres, List.length_replicate]
    · intro i r hi hnone
      have hlt : i < rows.length := by
        rcases List.getElem?_eq_some.mp hi with ⟨hl, _⟩
        exact hl
      rw [runBatches_preserve (batches_wf rows) hres hi hnone]
      simp [List.getElem?_replicate, hlt]

/-- C1 witness: a two-row job (one eligible row, one ineligible) completes
with both rows present in order and the ineligible row's email empty. -/
theorem output_table_shape_witness :
    [rowAnn, rowBad] = [rowAnn, rowBad] ∧
    (["ann@foo.com", ""] : List String).length = [rowAnn, rowBad].length ∧
    ∀ (i : Nat) (r : Row), [rowAnn, rowBad][i]? = some r →
      build_request_row r = .ok none → (["ann@foo.com", ""] : List String)[i]? = some "" :=
  output_table_shape [rowAnn, rowBad] netOk [rowAnn, rowBad] ["ann@foo.com", ""] (by decide)

/-- C2: if a submitted batch's network outcome is the fatal quota
condition, the job fails: the History Log entry is "failed" with zero
rows processed, no output table is written, the final status carries the
quota error and no download, and no later batch is submitted. -/
theorem quota_aborts_job (rows : List Row) (net : Nat → NetOutcome) (k : Nat)
    (b : List (Nat × RequestRow))
    (hmem : (k, b) ∈ (process_csv (.ok rows) net).calls)
    (hq : isQuotaOutcome (net k) = true) :
    (process_csv (.ok rows) net).historyEntry =
      some { status := "failed", rows_processed := 0, output_filename := "" } ∧
    (process_csv (.ok rows) net).outputFile = none ∧
    (process_csv (.ok rows) net).statuses = [initStatus, failStatus quotaMsg] ∧
    ∀ p ∈ (process_csv (.ok rows) net).calls, p.1 ≤ k := by
  rw [process_csv_calls] at hmem
  have hmem' : (k, b) ∈ (runBatches ((chunks BATCH_SIZE rows.enum).enumFrom 0) net
      (List.replicate rows.length "") 0).1 := hmem
  obtain ⟨hres0, hbound0⟩ := runBatches_quota hmem' hq
  have hres : (runBatches ((chunks BATCH_SIZE rows.enum).enum) net
      (List.replicate rows.length "") 0).2 = .error (.appError quotaMsg) := hres0
  have hbound : ∀ p ∈ (runBatches ((chunks BATCH_SIZE rows.enum).enum) net
      (List.replicate rows.length "") 0).1, p.1 ≤ k := hbound0
  refine ⟨?_, ?_, ?_, ?_⟩
  · unfold process_csv
    simp only [hres]
  · unfold process_csv
    simp only [hres]
  · unfold process_csv
    simp only [hres]
    rfl
  · rw [process_csv_calls]
    exact hbound

/-- C2 witness: a one-row job whose single batch receives an
insufficient-credits response fails with the quota message, zero rows
processed, no output, and no batch after batch 0. -/
theorem quota_aborts_job_witness :
    (process_csv (.ok [rowAnn]) netQuota).historyEntry =
      some { status := "failed", rows_processed := 0, output_filename := "" } ∧
    (process_csv (.ok [rowAnn]) netQuota).outputFile = none ∧
    (process_csv (.ok [rowAnn]) netQuota).statuses = [initStatus, failStatus quotaMsg] ∧
    ∀ p ∈ (process_csv (.ok [rowAnn]) netQuota).calls, p.1 ≤ 0 :=
  quota_aborts_job [rowAnn] netQuota 0
    [(0, { first_name := some "Ann", last_name := some "Lee", linkedin_url := none,
           organization_name := none, domain := some "foo.com" })]
    (by decide) (by decide)

/-- C8: when a job's History Log entry is "completed", its recorded
rows_processed equals the total number of records submitted to the
Enrichment Client across the job's batches. -/
theorem rows_processed_eq_submitted (rows : List Row) (net : Nat → NetOutcome)
    (hist : HistoryEntry)
    (h : (process_csv (.ok rows) net).historyEntry = some hist)
    (hcomp : hist.status = "completed") :
    hist.rows_processed =
      (((process_csv (.ok rows) net).calls).map (fun p => p.2.length)).sum := by
  rw [process_csv_calls]
  unfold process_csv at h
  cases hres : (runBatches ((chunks BATCH_SIZE rows.enum).enum) net
      (List.replicate rows.length "") 0).2 with
  | error e =>
    simp only [hres, Option.some.injEq] at h
    rw [← h] at hcomp
    exact absurd hcomp (by decide)
  | ok p =>
    obtain ⟨em, n⟩ := p
    simp only [hres, Option.some.injEq] at h
    rw [← h]
    simpa using runBatches_count hres

/-- C8 witness: the completed two-row job recorded one processed row, the
size of its single submitted batch. -/
theorem rows_processed_eq_submitted_witness :
    ({ status := "completed", rows_processed := 1, output_filename := "out.csv" } :
        HistoryEntry).rows_processed =
      (((process_csv (.ok [rowAnn, rowBad]) netOk).calls).map (fun p => p.2.length)).sum :=
  rows_processed_eq_submitted [rowAnn, rowBad] netOk
    { status := "completed", rows_processed := 1, output_filename := "out.csv" }
    (by decide) rfl

/-- C9: in every reachable processing-status entry of any job,
download_ready and error are never both set, and an errored entry is
reported to pollers with its message only — never with an output file. -/
theorem status_error_excludes_download (input : Except Exc (List Row))
    (net : Nat → NetOutcome) :
    ∀ s ∈ (process_csv input net).statuses,
      ¬(s.download_ready = true ∧ s.error = true) ∧
      (s.error = true →
        check_download s = .errorResp s.error_message ∧ s.download_file = none) := by
  intro s hs
  rcases process_csv_statuses input net with hst | ⟨m, hst⟩
  · rw [hst] at hs
    simp only [List.mem_cons, List.not_mem_nil, or_false] at hs
    rcases hs with rfl | rfl
    · exact ⟨by simp [initStatus], fun he => by simp [initStatus] at he⟩
    · exact ⟨by simp [readyStatus], fun he => by simp [readyStatus] at he⟩
  · rw [hst] at hs
    simp only [List.mem_cons, List.not_mem_nil, or_false] at hs
    rcases hs with rfl | rfl
    · exact ⟨by simp [initStatus], fun he => by simp [initStatus] at he⟩
    · exact ⟨by simp [failStatus], fun _ => ⟨by simp [check_download, failStatus], rfl⟩⟩

/-- C9 witness: the failure entry of a job whose table load raised is
reported as an error with no file. -/
theorem status_error_excludes_download_witness :
    ¬((failStatus "boom").download_ready = true ∧ (failStatus "boom").error = true) ∧
    ((failStatus "boom").error = true →
      check_download (failStatus "boom") = .errorResp (failStatus "boom").error_message ∧
      (failStatus "boom").download_file = none) :=
  status_error_excludes_download (.error (.appError "boom"))
    (fun _ => .postError (.appError "x")) (failStatus "boom") (by decide)

end Enrich
